import Mathlib

/-!
Verification of the BombermanClient prediction engine.

The definitions below are a shallow embedding of the client-side
prediction module (file `src/unnamed/part_000`, the revision the spec
calls the current-position blending strategy; the numeric constants are
the `config` object of that file).  Coordinates, velocities and times
are modelled as exact rationals.  The source compares Euclidean
distances computed with `Math.sqrt` against non-negative thresholds;
over exact arithmetic `Math.sqrt d > t` is equivalent to `d > t * t`,
so every distance comparison below is stated on squared distances.  The
input normalisation in `applyInput` genuinely divides by a square root,
so that one function is embedded over the reals further down.
-/

namespace Bomber

/-- Config constant `defaultSpeed` (part_000 line 20). -/
def defaultSpeed : ℚ := 3

/-- Config constant `playerRadius` (part_000 line 21). -/
def playerRadius : ℚ := 0.35

/-- Config constant `correctionThreshold` (part_000 line 24). -/
def correctionThreshold : ℚ := 0.5

/-- Config constant `otherPlayerLerpSpeed` (part_000 line 25). -/
def otherPlayerLerpSpeed : ℚ := 12

/-- Config constant `snapThreshold` (part_000 line 26). -/
def snapThreshold : ℚ := 2.0

/-- Field `maxHistoryLength` (part_000 line 10). -/
def maxHistoryLength : Nat := 120

/-- The blend factor used in the drift-correction branch of `reconcile`
(part_000 line 279). -/
def blendFactor : ℚ := 0.3

/-- The `localPlayer` record created by `init` (part_000 lines 39-47). -/
structure Player where
  x : ℚ
  y : ℚ
  speed : ℚ
  velocityX : ℚ
  velocityY : ℚ
  alive : Bool
deriving DecidableEq, Repr

/-- The server-sent player record consumed by `reconcile`. -/
structure ServerPlayer where
  x : ℚ
  y : ℚ
  speed : ℚ
  alive : Bool
deriving DecidableEq, Repr

/-- A bomb record: integer tile coordinates. -/
structure Bomb where
  x : ℤ
  y : ℤ
deriving DecidableEq, Repr

/-- The map grid: `width`/`height` bounds plus the `tiles` nested array. -/
structure GameMap where
  width : ℤ
  height : ℤ
  tiles : List (List Char)
deriving DecidableEq, Repr

/-- One entry of `positionHistory` (part_000 lines 63-69). -/
structure HistEntry where
  tick : ℤ
  x : ℚ
  y : ℚ
  vx : ℚ
  vy : ℚ
deriving DecidableEq, Repr

/-- One entry of `inputHistory` (part_000 lines 79-83). -/
structure InputEntry where
  tick : ℤ
  vx : ℚ
  vy : ℚ
deriving DecidableEq, Repr

/-- The mutable module state relevant to the local player. -/
structure LocalState where
  player : Player
  positionHistory : List HistEntry
  inputHistory : List InputEntry
  currentTick : ℤ
  lastServerTick : ℤ
deriving DecidableEq, Repr

/-- The JS access `map.tiles[tileY]?.[tileX]`: out-of-array indices give
`undefined`, modelled as `none`. -/
def tileAt (m : GameMap) (tileX tileY : ℤ) : Option Char :=
  if 0 ≤ tileY ∧ 0 ≤ tileX then
    (m.tiles[tileY.toNat]?).bind (fun row => row[tileX.toNat]?)
  else none

/-- The per-corner body of the loop in `canMoveToTile` (part_000 lines
170-182): bounds check against `map.width`/`map.height`, then the tile
must not be a wall or a box. -/
def cornerOk (m : GameMap) (c : ℚ × ℚ) : Bool :=
  let tileX := ⌊c.1⌋
  let tileY := ⌊c.2⌋
  if tileX < 0 ∨ m.width ≤ tileX ∨ tileY < 0 ∨ m.height ≤ tileY then false
  else
    match tileAt m tileX tileY with
    | some t => decide (t ≠ '#' ∧ t ≠ 'X')
    | none => true

/-- The four hitbox corners built in `canMoveToTile` (part_000 lines
163-168). -/
def corners (x y : ℚ) : List (ℚ × ℚ) :=
  [(x - playerRadius, y - playerRadius),
   (x + playerRadius, y - playerRadius),
   (x - playerRadius, y + playerRadius),
   (x + playerRadius, y + playerRadius)]

/-- The corner loop of `canMoveToTile` as a whole. -/
def cornersOk (m : GameMap) (x y : ℚ) : Bool :=
  (corners x y).all (cornerOk m)

/-- The bomb loop of `canMoveToTile` (part_000 lines 184-199): the
target tile may not hold a bomb, except when the current player tile is
that same bomb tile. -/
def bombsOk (bombs : List Bomb) (x y curX curY : ℚ) : Bool :=
  let targetTileX := ⌊x⌋
  let targetTileY := ⌊y⌋
  let currentTileX := ⌊curX⌋
  let currentTileY := ⌊curY⌋
  bombs.all (fun b =>
    if b.x = targetTileX ∧ b.y = targetTileY then
      decide (currentTileX = b.x ∧ currentTileY = b.y)
    else true)

/-- `canMoveToTile(x, y, map, bombs)` (part_000 lines 160-202).  The two
extra arguments are the current `this.localPlayer` position read by the
bomb exception. -/
def canMoveToTile (x y : ℚ) (m : GameMap) (bombs : List Bomb) (curX curY : ℚ) : Bool :=
  cornersOk m x y && bombsOk bombs x y curX curY

/-- `simulateTick(gameState, dt)` restricted to the fields it touches
(part_000 lines 138-157): integrate velocity, try the diagonal step,
otherwise slide per axis. -/
def simulateTick (p : Player) (m : GameMap) (bombs : List Bomb) (dt : ℚ) : Player :=
  if p.alive = false then p
  else if p.velocityX = 0 ∧ p.velocityY = 0 then p
  else
    let newX := p.x + p.velocityX * dt
    let newY := p.y + p.velocityY * dt
    if canMoveToTile newX newY m bombs p.x p.y then
      { p with x := newX, y := newY }
    else
      let canMoveX := canMoveToTile newX p.y m bombs p.x p.y
      let canMoveY := canMoveToTile p.x newY m bombs p.x p.y
      { p with
        x := if canMoveX then newX else p.x,
        y := if canMoveY then newY else p.y }

/-- The trim loop of `recordPosition` (part_000 lines 72-74): shift from
the front while the history is longer than `maxHistoryLength`. -/
def trimHistory : List HistEntry → List HistEntry
  | [] => []
  | h :: t => if maxHistoryLength < (h :: t).length then trimHistory t else h :: t

/-- `recordPosition()` (part_000 lines 60-75). -/
def recordPosition (s : LocalState) : LocalState :=
  { s with positionHistory :=
      trimHistory (s.positionHistory ++
        [{ tick := s.currentTick, x := s.player.x, y := s.player.y,
           vx := s.player.velocityX, vy := s.player.velocityY }]) }

/-- `reconcile(serverPlayer, gameState)` restricted to the local-player
state (part_000 lines 238-295; the tail of the source function only
retargets the remote-player interpolation map, which is a disjoint piece
of state modelled separately).  Distance comparisons are stated on
squared distances, see the file header.  The JS expression
`serverPlayer.speed || defaultSpeed` falls back to the default exactly
when the numeric speed is falsy, i.e. zero. -/
def reconcileLocal (s : LocalState) (sp : ServerPlayer) (serverTick : ℤ) : LocalState :=
  let p := { s.player with
    speed := if sp.speed = 0 then defaultSpeed else sp.speed,
    alive := sp.alive }
  if sp.alive = false then
    { s with player := { p with x := sp.x, y := sp.y }, positionHistory := [] }
  else
    let dx := sp.x - p.x
    let dy := sp.y - p.y
    let distSq := dx * dx + dy * dy
    let s1 :=
      if snapThreshold * snapThreshold < distSq then
        recordPosition { s with
          player := { p with x := sp.x, y := sp.y },
          positionHistory := [],
          currentTick := serverTick }
      else if correctionThreshold * correctionThreshold < distSq then
        { s with player := { p with
            x := p.x + dx * blendFactor,
            y := p.y + dy * blendFactor } }
      else
        { s with player := p }
    let s2 := if s1.currentTick < serverTick then { s1 with currentTick := serverTick } else s1
    { s2 with
      positionHistory := s2.positionHistory.filter (fun h => serverTick < h.tick),
      inputHistory := s2.inputHistory.filter (fun i => serverTick < i.tick),
      lastServerTick := serverTick }

/-- One remote-player interpolation record of the `otherPlayers` map. -/
structure OtherPlayer where
  x : ℚ
  y : ℚ
  targetX : ℚ
  targetY : ℚ
deriving DecidableEq, Repr

/-- The lerp applied to one tracked remote player by `updateOtherPlayers`
(part_000 lines 222-225). -/
def lerpStep (o : OtherPlayer) (dt : ℚ) : OtherPlayer :=
  let lerpSpeed := otherPlayerLerpSpeed * dt
  { o with
    x := o.x + (o.targetX - o.x) * min lerpSpeed 1,
    y := o.y + (o.targetY - o.y) * min lerpSpeed 1 }

/-- Squared distance from the displayed position to the target. -/
def distSqToTarget (o : OtherPlayer) : ℚ :=
  (o.targetX - o.x) ^ 2 + (o.targetY - o.y) ^ 2

/-- The simulateTick situation in which the diagonal step is blocked but
both single-axis sub-moves pass: the source then applies both sub-moves,
yielding the very diagonal position the first check rejected. -/
def dualSlide (p : Player) (m : GameMap) (bombs : List Bomb) (dt : ℚ) : Prop :=
  canMoveToTile (p.x + p.velocityX * dt) (p.y + p.velocityY * dt) m bombs p.x p.y = false ∧
  canMoveToTile (p.x + p.velocityX * dt) p.y m bombs p.x p.y = true ∧
  canMoveToTile p.x (p.y + p.velocityY * dt) m bombs p.x p.y = true

/-- The `localPlayer` record over the reals, for the one function whose
arithmetic needs a square root. -/
structure RPlayer where
  x : ℝ
  y : ℝ
  speed : ℝ
  velocityX : ℝ
  velocityY : ℝ
  alive : Bool

/-- `applyInput(vx, vy)` (part_000 lines 92-107) over the reals.  The
source additionally calls `recordInput`, which only appends to
`inputHistory` and touches no player field, so it is not modelled here.
The guard returns the state unchanged when there is no local player or
the player is dead. -/
noncomputable def applyInput (lp : Option RPlayer) (vx vy : ℝ) : Option RPlayer :=
  match lp with
  | none => none
  | some p =>
    if p.alive = false then some p
    else
      let length := Real.sqrt (vx * vx + vy * vy)
      if 0 < length then
        some { p with
          velocityX := vx / length * p.speed,
          velocityY := vy / length * p.speed }
      else
        some { p with velocityX := 0, velocityY := 0 }

/-- An unobstructed map: large bounds, and an empty tile array, so every
in-bounds lookup yields `undefined`, which the source treats as
passable. -/
def openMap : GameMap := { width := 100, height := 100, tiles := [] }

/-- A 5 by 5 map whose only obstacle is a wall tile at (2, 2). -/
def wallMap : GameMap :=
  { width := 5, height := 5,
    tiles := [['.', '.', '.', '.', '.'],
              ['.', '.', '.', '.', '.'],
              ['.', '.', '#', '.', '.'],
              ['.', '.', '.', '.', '.'],
              ['.', '.', '.', '.', '.']] }

/-- A freshly initialised local state at (0.5, 0.5), as `init` leaves it
after the first `recordPosition`. -/
def sBase : LocalState :=
  { player := { x := 0.5, y := 0.5, speed := 3, velocityX := 0, velocityY := 0, alive := true },
    positionHistory := [{ tick := 0, x := 0.5, y := 0.5, vx := 0, vy := 0 }],
    inputHistory := [],
    currentTick := 0,
    lastServerTick := 0 }

/-- A server record 2 tiles away on each axis from `sBase` (distance
above the snap threshold). -/
def spSnapFar : ServerPlayer := { x := 2.5, y := 2.5, speed := 3, alive := true }

/-- A server record 1 tile away from `sBase` (distance strictly between
the correction and snap thresholds). -/
def spDriftNear : ServerPlayer := { x := 1.5, y := 0.5, speed := 3, alive := true }

/-- A server record agreeing exactly with `sBase`. -/
def spInSync : ServerPlayer := { x := 0.5, y := 0.5, speed := 3, alive := true }

/-- A server record with (falsy) zero speed. -/
def spZeroSpeed : ServerPlayer := { x := 0.5, y := 0.5, speed := 0, alive := true }

/-- A server record reporting the player dead. -/
def spDead : ServerPlayer := { x := 0.25, y := 0.75, speed := 3, alive := false }

/-- A live player at (1.5, 1.5) moving along the x axis. -/
def pRun : Player :=
  { x := 1.5, y := 1.5, speed := 3, velocityX := 1, velocityY := 0, alive := true }

/-- A local state holding `pRun`. -/
def sRun : LocalState :=
  { player := pRun, positionHistory := [], inputHistory := [],
    currentTick := 0, lastServerTick := 0 }

/-- A server record agreeing exactly with `pRun`. -/
def spSame15 : ServerPlayer := { x := 1.5, y := 1.5, speed := 3, alive := true }

/-- A remote-player interpolation record with a fixed nontrivial target. -/
def oDemo : OtherPlayer := { x := 0, y := 0, targetX := 1, targetY := 1 }

/-- A live real-valued player for the input-normalisation theorem. -/
def inputPlayer : RPlayer :=
  { x := 0, y := 0, speed := 3, velocityX := 0, velocityY := 0, alive := true }

/-! ## Helper lemmas -/

theorem floor_eval (a : ℚ) (n : ℤ) (h₁ : (n : ℚ) ≤ a) (h₂ : a < n + 1) : ⌊a⌋ = n :=
  Int.floor_eq_iff.mpr ⟨h₁, h₂⟩

theorem reconcile_alive (s : LocalState) (sp : ServerPlayer) (tick : ℤ) :
    (reconcileLocal s sp tick).player.alive = sp.alive := by
  simp only [reconcileLocal, recordPosition]
  split_ifs <;> rfl

theorem reconcile_velocityX (s : LocalState) (sp : ServerPlayer) (tick : ℤ) :
    (reconcileLocal s sp tick).player.velocityX = s.player.velocityX := by
  simp only [reconcileLocal, recordPosition]
  split_ifs <;> rfl

theorem reconcile_velocityY (s : LocalState) (sp : ServerPlayer) (tick : ℤ) :
    (reconcileLocal s sp tick).player.velocityY = s.player.velocityY := by
  simp only [reconcileLocal, recordPosition]
  split_ifs <;> rfl

theorem reconcile_speed (s : LocalState) (sp : ServerPlayer) (tick : ℤ) :
    (reconcileLocal s sp tick).player.speed = if sp.speed = 0 then defaultSpeed else sp.speed := by
  simp only [reconcileLocal, recordPosition]
  split_ifs <;> rfl

theorem reconcile_dead_pos (s : LocalState) (sp : ServerPlayer) (tick : ℤ) (h : sp.alive = false) :
    (reconcileLocal s sp tick).player.x = sp.x ∧ (reconcileLocal s sp tick).player.y = sp.y := by
  simp only [reconcileLocal, recordPosition, h]
  norm_num

theorem reconcile_snap (s : LocalState) (sp : ServerPlayer) (tick : ℤ)
    (halive : sp.alive = true)
    (hdist : snapThreshold * snapThreshold <
      (sp.x - s.player.x) * (sp.x - s.player.x) + (sp.y - s.player.y) * (sp.y - s.player.y)) :
    (reconcileLocal s sp tick).player.x = sp.x ∧
    (reconcileLocal s sp tick).player.y = sp.y ∧
    (reconcileLocal s sp tick).positionHistory = [] := by
  simp only [reconcileLocal, recordPosition, halive]
  norm_num [hdist, trimHistory, maxHistoryLength, List.filter]

theorem reconcile_blend (s : LocalState) (sp : ServerPlayer) (tick : ℤ)
    (halive : sp.alive = true)
    (hlo : correctionThreshold * correctionThreshold <
      (sp.x - s.player.x) * (sp.x - s.player.x) + (sp.y - s.player.y) * (sp.y - s.player.y))
    (hhi : (sp.x - s.player.x) * (sp.x - s.player.x) + (sp.y - s.player.y) * (sp.y - s.player.y) <
      snapThreshold * snapThreshold) :
    (reconcileLocal s sp tick).player.x = s.player.x + (sp.x - s.player.x) * blendFactor ∧
    (reconcileLocal s sp tick).player.y = s.player.y + (sp.y - s.player.y) * blendFactor := by
  simp only [reconcileLocal, recordPosition, halive]
  rw [if_neg (by simp), if_neg (not_lt.mpr (le_of_lt hhi)), if_pos hlo]
  split_ifs <;> constructor <;> rfl

theorem reconcile_insync (s : LocalState) (sp : ServerPlayer) (tick : ℤ)
    (halive : sp.alive = true)
    (hdist : (sp.x - s.player.x) * (sp.x - s.player.x) + (sp.y - s.player.y) * (sp.y - s.player.y) <
      correctionThreshold * correctionThreshold) :
    (reconcileLocal s sp tick).player.x = s.player.x ∧
    (reconcileLocal s sp tick).player.y = s.player.y := by
  have hsnap : ¬ (snapThreshold * snapThreshold <
      (sp.x - s.player.x) * (sp.x - s.player.x) + (sp.y - s.player.y) * (sp.y - s.player.y)) := by
    rw [not_lt]
    refine le_trans (le_of_lt hdist) ?_
    norm_num [correctionThreshold, snapThreshold]
  simp only [reconcileLocal, recordPosition, halive]
  rw [if_neg (by simp), if_neg hsnap, if_neg (not_lt.mpr (le_of_lt hdist))]
  split_ifs <;> constructor <;> rfl

theorem simulateTick_dead (p : Player) (m : GameMap) (bombs : List Bomb) (dt : ℚ)
    (h : p.alive = false) : simulateTick p m bombs dt = p := by
  simp [simulateTick, h]

theorem simulateTick_move (p : Player) (m : GameMap) (bombs : List Bomb) (dt : ℚ)
    (halive : p.alive = true) (hvel : ¬(p.velocityX = 0 ∧ p.velocityY = 0))
    (hcan : canMoveToTile (p.x + p.velocityX * dt) (p.y + p.velocityY * dt) m bombs p.x p.y = true) :
    simulateTick p m bombs dt =
      { p with x := p.x + p.velocityX * dt, y := p.y + p.velocityY * dt } := by
  simp [simulateTick, halive, hvel, hcan]

theorem canMove_cornersOk (x y : ℚ) (m : GameMap) (bombs : List Bomb) (curX curY : ℚ)
    (h : canMoveToTile x y m bombs curX curY = true) : cornersOk m x y = true := by
  rw [canMoveToTile] at h
  exact ((Bool.and_eq_true _ _).mp h).1

theorem cornerOk_iff (m : GameMap) (c : ℚ × ℚ) :
    cornerOk m c = true ↔
      (0 ≤ ⌊c.1⌋ ∧ ⌊c.1⌋ < m.width ∧ 0 ≤ ⌊c.2⌋ ∧ ⌊c.2⌋ < m.height) ∧
      tileAt m ⌊c.1⌋ ⌊c.2⌋ ≠ some '#' ∧ tileAt m ⌊c.1⌋ ⌊c.2⌋ ≠ some 'X' := by
  simp only [cornerOk]
  split_ifs with h
  · simp only [Bool.false_eq_true, false_iff]
    intro hc
    rcases h with h | h | h | h
    · exact absurd hc.1.1 (not_le.mpr h)
    · exact absurd hc.1.2.1 (not_lt.mpr h)
    · exact absurd hc.1.2.2.1 (not_le.mpr h)
    · exact absurd hc.1.2.2.2 (not_lt.mpr h)
  · push_neg at h
    obtain ⟨h1, h2, h3, h4⟩ := h
    cases htile : tileAt m ⌊c.1⌋ ⌊c.2⌋ with
    | none => simp [htile, h1, h2, h3, h4]
    | some t =>
      simp only [htile, decide_eq_true_eq]
      constructor
      · intro ht
        exact ⟨⟨h1, h2, h3, h4⟩, by simpa using ht.1, by simpa using ht.2⟩
      · intro ht
        exact ⟨by simpa using ht.2.1, by simpa using ht.2.2⟩

theorem bombsOk_iff (bombs : List Bomb) (x y curX curY : ℚ) :
    bombsOk bombs x y curX curY = true ↔
      ∀ b ∈ bombs, b.x = ⌊x⌋ ∧ b.y = ⌊y⌋ → ⌊curX⌋ = b.x ∧ ⌊curY⌋ = b.y := by
  simp only [bombsOk, List.all_eq_true]
  refine forall_congr' fun b => ?_
  refine imp_congr Iff.rfl ?_
  split_ifs with h
  · simp [h]
  · simp [h]

theorem lerpStep_gapX (o : OtherPlayer) (dt : ℚ) :
    (lerpStep o dt).targetX - (lerpStep o dt).x =
      (o.targetX - o.x) * (1 - min (otherPlayerLerpSpeed * dt) 1) := by
  simp only [lerpStep]
  ring

theorem lerpStep_gapY (o : OtherPlayer) (dt : ℚ) :
    (lerpStep o dt).targetY - (lerpStep o dt).y =
      (o.targetY - o.y) * (1 - min (otherPlayerLerpSpeed * dt) 1) := by
  simp only [lerpStep]
  ring

theorem lerpStep_distSq (o : OtherPlayer) (dt : ℚ) :
    distSqToTarget (lerpStep o dt) =
      distSqToTarget o * (1 - min (otherPlayerLerpSpeed * dt) 1) ^ 2 := by
  unfold distSqToTarget
  rw [lerpStep_gapX, lerpStep_gapY]
  ring

theorem lerp_factor_nonneg (dt : ℚ) (hdt : 0 ≤ dt) : 0 ≤ min (otherPlayerLerpSpeed * dt) 1 :=
  le_min (mul_nonneg (by norm_num [otherPlayerLerpSpeed]) hdt) one_pos.le

theorem lerp_factor_le_one (dt : ℚ) : min (otherPlayerLerpSpeed * dt) 1 ≤ 1 := min_le_right _ _

theorem distSq_iter (o : OtherPlayer) (dt : ℚ) (n : ℕ) :
    distSqToTarget ((fun t => lerpStep t dt)^[n] o) =
      distSqToTarget o * ((1 - min (otherPlayerLerpSpeed * dt) 1) ^ 2) ^ n := by
  induction n with
  | zero => simp
  | succ k ih =>
    rw [Function.iterate_succ_apply', lerpStep_distSq, ih]
    ring

theorem distSq_nonneg (o : OtherPlayer) : 0 ≤ distSqToTarget o := by
  unfold distSqToTarget
  positivity

theorem tileAt_openMap (a b : ℤ) : tileAt openMap a b = none := by
  simp [tileAt, openMap]

theorem cornerOk_openMap (c : ℚ × ℚ) (h1 : 0 ≤ c.1) (h2 : c.1 < 100) (h3 : 0 ≤ c.2)
    (h4 : c.2 < 100) : cornerOk openMap c = true := by
  have g1 : ¬ ⌊c.1⌋ < 0 := not_lt.mpr (Int.floor_nonneg.mpr h1)
  have g2 : ¬ openMap.width ≤ ⌊c.1⌋ := by
    simp only [openMap]
    exact not_le.mpr (Int.floor_lt.mpr (by exact_mod_cast h2))
  have g3 : ¬ ⌊c.2⌋ < 0 := not_lt.mpr (Int.floor_nonneg.mpr h3)
  have g4 : ¬ openMap.height ≤ ⌊c.2⌋ := by
    simp only [openMap]
    exact not_le.mpr (Int.floor_lt.mpr (by exact_mod_cast h4))
  simp [cornerOk, tileAt_openMap, g1, g2, g3, g4]

theorem cornersOk_openMap (x y : ℚ) (h1 : 0 ≤ x - playerRadius) (h2 : x + playerRadius < 100)
    (h3 : 0 ≤ y - playerRadius) (h4 : y + playerRadius < 100) :
    cornersOk openMap x y = true := by
  have hpr : (0 : ℚ) ≤ playerRadius := by norm_num [playerRadius]
  simp only [cornersOk, corners, List.all_cons, List.all_nil, Bool.and_eq_true,
    Bool.and_true]
  refine ⟨?_, ?_, ?_, ?_⟩ <;> apply cornerOk_openMap <;> dsimp <;> linarith

theorem canMove_openMap (x y curX curY : ℚ) (h1 : 0 ≤ x - playerRadius)
    (h2 : x + playerRadius < 100) (h3 : 0 ≤ y - playerRadius) (h4 : y + playerRadius < 100) :
    canMoveToTile x y openMap [] curX curY = true := by
  rw [canMoveToTile, cornersOk_openMap x y h1 h2 h3 h4]
  simp [bombsOk]

/-! ## Claims -/

/-- Claim C1, counterexample: the very first reconcile call after
initialisation, with the predicted-to-server distance strictly between
the correction threshold and the snap threshold, already moves the local
position — the code has no drift timer, so no drift duration has elapsed
and the claimed 500 ms gate does not exist. -/
theorem c1_counterexample :
    correctionThreshold * correctionThreshold <
      (spDriftNear.x - sBase.player.x) * (spDriftNear.x - sBase.player.x) +
      (spDriftNear.y - sBase.player.y) * (spDriftNear.y - sBase.player.y) ∧
    (spDriftNear.x - sBase.player.x) * (spDriftNear.x - sBase.player.x) +
      (spDriftNear.y - sBase.player.y) * (spDriftNear.y - sBase.player.y) <
      snapThreshold * snapThreshold ∧
    (reconcileLocal sBase spDriftNear 0).player.x ≠ sBase.player.x := by
  refine ⟨by norm_num [sBase, spDriftNear, correctionThreshold],
    by norm_num [sBase, spDriftNear, snapThreshold], ?_⟩
  norm_num [reconcileLocal, recordPosition, trimHistory, sBase, spDriftNear, snapThreshold,
    correctionThreshold, defaultSpeed, blendFactor, maxHistoryLength, List.filter]

/-- Claim C1 (amended): whenever the squared distance between the
predicted and server positions lies strictly between the squared
correction threshold and the squared snap threshold, reconcile applies
the 30 percent partial blend toward the server position immediately, on
every such call; there is no drift timer and no bounded-duration gate. -/
theorem c1_drift_blend_immediate (s : LocalState) (sp : ServerPlayer) (tick : ℤ)
    (halive : sp.alive = true)
    (hlo : correctionThreshold * correctionThreshold <
      (sp.x - s.player.x) * (sp.x - s.player.x) + (sp.y - s.player.y) * (sp.y - s.player.y))
    (hhi : (sp.x - s.player.x) * (sp.x - s.player.x) + (sp.y - s.player.y) * (sp.y - s.player.y) <
      snapThreshold * snapThreshold) :
    (reconcileLocal s sp tick).player.x = s.player.x + (sp.x - s.player.x) * blendFactor ∧
    (reconcileLocal s sp tick).player.y = s.player.y + (sp.y - s.player.y) * blendFactor :=
  reconcile_blend s sp tick halive hlo hhi

/-- Claim C1, witness for the amended theorem at a concrete drifting
state. -/
theorem c1_witness :
    (reconcileLocal sBase spDriftNear 0).player.x =
      sBase.player.x + (spDriftNear.x - sBase.player.x) * blendFactor ∧
    (reconcileLocal sBase spDriftNear 0).player.y =
      sBase.player.y + (spDriftNear.y - sBase.player.y) * blendFactor :=
  c1_drift_blend_immediate sBase spDriftNear 0 rfl
    (by norm_num [sBase, spDriftNear, correctionThreshold])
    (by norm_num [sBase, spDriftNear, snapThreshold])

/-- Claim C2: for an initialised, alive local player, a single reconcile
call whose squared predicted-to-server distance exceeds the squared snap
threshold sets the predicted position exactly to the server position and
leaves the retained position history empty. -/
theorem c2_snap_clears_history (s : LocalState) (sp : ServerPlayer) (tick : ℤ)
    (hlocal : s.player.alive = true) (halive : sp.alive = true)
    (hdist : snapThreshold * snapThreshold <
      (sp.x - s.player.x) * (sp.x - s.player.x) + (sp.y - s.player.y) * (sp.y - s.player.y)) :
    (reconcileLocal s sp tick).player.x = sp.x ∧
    (reconcileLocal s sp tick).player.y = sp.y ∧
    (reconcileLocal s sp tick).positionHistory = [] :=
  reconcile_snap s sp tick halive hdist

/-- Claim C2, witness at a concrete state with distance above the snap
threshold. -/
theorem c2_witness :
    (reconcileLocal sBase spSnapFar 0).player.x = spSnapFar.x ∧
    (reconcileLocal sBase spSnapFar 0).player.y = spSnapFar.y ∧
    (reconcileLocal sBase spSnapFar 0).positionHistory = [] :=
  c2_snap_clears_history sBase spSnapFar 0 rfl rfl
    (by norm_num [sBase, spSnapFar, snapThreshold])

/-- Claim C3: for an initialised, alive local player whose squared
distance to the server position is below the squared correction
threshold, any number of repeated reconcile calls with that same server
record leaves the predicted position unchanged. -/
theorem c3_insync_idempotent (s : LocalState) (sp : ServerPlayer) (tick : ℤ)
    (hlocal : s.player.alive = true) (halive : sp.alive = true)
    (hdist : (sp.x - s.player.x) * (sp.x - s.player.x) + (sp.y - s.player.y) * (sp.y - s.player.y) <
      correctionThreshold * correctionThreshold) :
    ∀ n : ℕ, ((fun t => reconcileLocal t sp tick)^[n] s).player.x = s.player.x ∧
      ((fun t => reconcileLocal t sp tick)^[n] s).player.y = s.player.y := by
  intro n
  induction n with
  | zero => exact ⟨rfl, rfl⟩
  | succ k ih =>
    rw [Function.iterate_succ_apply']
    have h := reconcile_insync ((fun t => reconcileLocal t sp tick)^[k] s) sp tick halive
      (by rw [ih.1, ih.2]; exact hdist)
    exact ⟨by rw [h.1, ih.1], by rw [h.2, ih.2]⟩

/-- Claim C3, witness: two repeated in-sync reconcile calls at a
concrete state leave the position untouched. -/
theorem c3_witness :
    ((fun t => reconcileLocal t spInSync 0)^[2] sBase).player.x = sBase.player.x ∧
    ((fun t => reconcileLocal t spInSync 0)^[2] sBase).player.y = sBase.player.y :=
  c3_insync_idempotent sBase spInSync 0 rfl rfl
    (by norm_num [sBase, spInSync, correctionThreshold]) 2

/-- Claim C4, counterexample: from a legal start position all of whose
hitbox corners are passable, a single reconcile call (one engine
operation) whose server position lies over a wall snaps the player onto
that wall without any collision check, so afterward a hitbox corner sits
on a wall tile. -/
theorem c4_counterexample :
    cornersOk wallMap sBase.player.x sBase.player.y = true ∧
    cornersOk wallMap (reconcileLocal sBase spSnapFar 0).player.x
      (reconcileLocal sBase spSnapFar 0).player.y = false := by
  constructor
  · have f1 : ⌊(0.5 - playerRadius : ℚ)⌋ = 0 :=
      floor_eval _ 0 (by norm_num [playerRadius]) (by norm_num [playerRadius])
    have f2 : ⌊(0.5 + playerRadius : ℚ)⌋ = 0 :=
      floor_eval _ 0 (by norm_num [playerRadius]) (by norm_num [playerRadius])
    simp [cornersOk, corners, cornerOk, tileAt, wallMap, sBase, f1, f2]
  · have h := reconcile_snap sBase spSnapFar 0 rfl
      (by norm_num [sBase, spSnapFar, snapThreshold])
    rw [h.1, h.2.1]
    have f1 : ⌊(spSnapFar.x - playerRadius : ℚ)⌋ = 2 :=
      floor_eval _ 2 (by norm_num [playerRadius, spSnapFar]) (by norm_num [playerRadius, spSnapFar])
    have f2 : ⌊(spSnapFar.x + playerRadius : ℚ)⌋ = 2 :=
      floor_eval _ 2 (by norm_num [playerRadius, spSnapFar]) (by norm_num [playerRadius, spSnapFar])
    have f3 : ⌊(spSnapFar.y - playerRadius : ℚ)⌋ = 2 :=
      floor_eval _ 2 (by norm_num [playerRadius, spSnapFar]) (by norm_num [playerRadius, spSnapFar])
    have f4 : ⌊(spSnapFar.y + playerRadius : ℚ)⌋ = 2 :=
      floor_eval _ 2 (by norm_num [playerRadius, spSnapFar]) (by norm_num [playerRadius, spSnapFar])
    simp [cornersOk, corners, cornerOk, tileAt, wallMap, f1, f2, f3, f4]

/-- Claim C4 (amended): a single simulation step preserves the
all-corners-passable invariant whenever it is not the dual-slide case
(diagonal blocked but both single-axis sub-moves allowed); every
position it writes in the other cases was vetted by canMoveToTile.
Reconcile, by contrast, mutates the position with no collision check at
all, as the counterexample shows. -/
theorem c4_step_preservation (p : Player) (m : GameMap) (bombs : List Bomb) (dt : ℚ)
    (hok : cornersOk m p.x p.y = true) (hnd : ¬ dualSlide p m bombs dt) :
    cornersOk m (simulateTick p m bombs dt).x (simulateTick p m bombs dt).y = true := by
  by_cases halive : p.alive = false
  · simp [simulateTick, halive, hok]
  · rw [Bool.not_eq_false] at halive
    by_cases hvel : p.velocityX = 0 ∧ p.velocityY = 0
    · simp [simulateTick, halive, hvel, hok]
    · by_cases hdiag : canMoveToTile (p.x + p.velocityX * dt) (p.y + p.velocityY * dt) m bombs
          p.x p.y = true
      · simp only [simulateTick, halive, hvel, hdiag]
        simp only [Bool.true_eq_false, if_false, if_neg hvel, if_true]
        exact canMove_cornersOk _ _ _ _ _ _ hdiag
      · rw [Bool.not_eq_true] at hdiag
        by_cases hx : canMoveToTile (p.x + p.velocityX * dt) p.y m bombs p.x p.y = true
        · by_cases hy : canMoveToTile p.x (p.y + p.velocityY * dt) m bombs p.x p.y = true
          · exact absurd ⟨hdiag, hx, hy⟩ hnd
          · rw [Bool.not_eq_true] at hy
            simp only [simulateTick, halive, hvel, hdiag]
            simp only [Bool.true_eq_false, if_false, if_neg hvel, hx, hy, if_true]
            exact canMove_cornersOk _ _ _ _ _ _ hx
        · rw [Bool.not_eq_true] at hx
          by_cases hy : canMoveToTile p.x (p.y + p.velocityY * dt) m bombs p.x p.y = true
          · simp only [simulateTick, halive, hvel, hdiag]
            simp only [Bool.true_eq_false, if_false, if_neg hvel, hx, hy, if_true]
            exact canMove_cornersOk _ _ _ _ _ _ hy
          · rw [Bool.not_eq_true] at hy
            simp only [simulateTick, halive, hvel, hdiag]
            simp only [Bool.true_eq_false, if_false, if_neg hvel, hx, hy]
            simpa using hok

/-- Claim C4, witness for the amended step-preservation theorem at a
concrete moving player on an unobstructed map. -/
theorem c4_witness :
    cornersOk openMap (simulateTick pRun openMap [] (1/10)).x
      (simulateTick pRun openMap [] (1/10)).y = true := by
  have hcan : canMoveToTile (pRun.x + pRun.velocityX * (1/10)) (pRun.y + pRun.velocityY * (1/10))
      openMap [] pRun.x pRun.y = true := by
    apply canMove_openMap <;> norm_num [pRun, playerRadius]
  have hok : cornersOk openMap pRun.x pRun.y = true := by
    apply cornersOk_openMap <;> norm_num [pRun, playerRadius]
  have hnd : ¬ dualSlide pRun openMap [] (1/10) := by
    intro hd
    simp only [dualSlide] at hd
    rw [hd.1] at hcan
    exact Bool.noConfusion hcan
  exact c4_step_preservation pRun openMap [] (1/10) hok hnd

/-- Claim C5: canMoveToTile returns true exactly when all four corners
of the square hitbox of half-width 0.35 centred at the target position
lie within map bounds over tiles that are neither wall nor box, and
every bomb on the target tile is a bomb on the tile the player currently
stands on. -/
theorem c5_canMoveToTile_iff (x y : ℚ) (m : GameMap) (bombs : List Bomb) (curX curY : ℚ) :
    canMoveToTile x y m bombs curX curY = true ↔
      (∀ c ∈ corners x y,
        (0 ≤ ⌊c.1⌋ ∧ ⌊c.1⌋ < m.width ∧ 0 ≤ ⌊c.2⌋ ∧ ⌊c.2⌋ < m.height) ∧
        tileAt m ⌊c.1⌋ ⌊c.2⌋ ≠ some '#' ∧ tileAt m ⌊c.1⌋ ⌊c.2⌋ ≠ some 'X') ∧
      (∀ b ∈ bombs, b.x = ⌊x⌋ ∧ b.y = ⌊y⌋ → ⌊curX⌋ = b.x ∧ ⌊curY⌋ = b.y) := by
  rw [canMoveToTile, Bool.and_eq_true, bombsOk_iff]
  refine and_congr ?_ Iff.rfl
  rw [cornersOk, List.all_eq_true]
  exact forall₂_congr fun c _ => cornerOk_iff m c

/-- Claim C6: with nonzero velocity, the full diagonal step is attempted
first; if it is blocked, the horizontal-only and vertical-only sub-moves
are attempted independently and whichever succeed are applied, so a
player moving diagonally into a corner with one axis open advances along
the open axis. -/
theorem c6_diagonal_then_axis_sliding (p : Player) (m : GameMap) (bombs : List Bomb) (dt : ℚ)
    (halive : p.alive = true) (hvel : ¬(p.velocityX = 0 ∧ p.velocityY = 0)) :
    (canMoveToTile (p.x + p.velocityX * dt) (p.y + p.velocityY * dt) m bombs p.x p.y = true →
      simulateTick p m bombs dt =
        { p with x := p.x + p.velocityX * dt, y := p.y + p.velocityY * dt }) ∧
    (canMoveToTile (p.x + p.velocityX * dt) (p.y + p.velocityY * dt) m bombs p.x p.y = false →
      simulateTick p m bombs dt =
        { p with
          x := if canMoveToTile (p.x + p.velocityX * dt) p.y m bombs p.x p.y then
                 p.x + p.velocityX * dt else p.x,
          y := if canMoveToTile p.x (p.y + p.velocityY * dt) m bombs p.x p.y then
                 p.y + p.velocityY * dt else p.y }) := by
  constructor
  · intro h
    simp [simulateTick, halive, hvel, h]
  · intro h
    simp [simulateTick, halive, hvel, h]

/-- Claim C6, witness: a concrete moving player on an unobstructed map
takes the full step. -/
theorem c6_witness :
    simulateTick pRun openMap [] (1/10) =
      { pRun with x := pRun.x + pRun.velocityX * (1/10), y := pRun.y + pRun.velocityY * (1/10) } := by
  have hcan : canMoveToTile (pRun.x + pRun.velocityX * (1/10)) (pRun.y + pRun.velocityY * (1/10))
      openMap [] pRun.x pRun.y = true := by
    apply canMove_openMap <;> norm_num [pRun, playerRadius]
  exact (c6_diagonal_then_axis_sliding pRun openMap [] (1/10) rfl (by norm_num [pRun])).1 hcan

/-- Claim C7: for any nonzero intent vector with components in the set
of -1, 0 and 1 applied to a live player, applyInput produces a velocity
whose squared magnitude equals the squared configured speed (the
exact-real form of magnitude equals speed), for both axis-aligned and
diagonal inputs; with a dead or missing player, applyInput changes
nothing. -/
theorem c7_input_normalization (p : RPlayer) (vx vy : ℝ)
    (hvx : vx = -1 ∨ vx = 0 ∨ vx = 1) (hvy : vy = -1 ∨ vy = 0 ∨ vy = 1)
    (hnz : ¬(vx = 0 ∧ vy = 0)) :
    (p.alive = true → ∃ q : RPlayer, applyInput (some p) vx vy = some q ∧
      q.velocityX ^ 2 + q.velocityY ^ 2 = p.speed ^ 2 ∧
      q.x = p.x ∧ q.y = p.y ∧ q.speed = p.speed ∧ q.alive = p.alive) ∧
    (p.alive = false → applyInput (some p) vx vy = some p) ∧
    applyInput (none : Option RPlayer) vx vy = none := by
  have hsum : 0 < vx * vx + vy * vy := by
    rcases hvx with h | h | h <;> rcases hvy with h2 | h2 | h2 <;> subst h <;> subst h2 <;>
      norm_num at hnz ⊢
  have hlen : 0 < Real.sqrt (vx * vx + vy * vy) := Real.sqrt_pos.mpr hsum
  have hlen2 : Real.sqrt (vx * vx + vy * vy) ^ 2 = vx * vx + vy * vy :=
    Real.sq_sqrt (le_of_lt hsum)
  refine ⟨?_, ?_, rfl⟩
  · intro halive
    refine ⟨{ p with
        velocityX := vx / Real.sqrt (vx * vx + vy * vy) * p.speed,
        velocityY := vy / Real.sqrt (vx * vx + vy * vy) * p.speed }, ?_, ?_, rfl, rfl, rfl, rfl⟩
    · simp only [applyInput, halive, Bool.true_eq_false, if_false, if_pos hlen]
    · have hne : Real.sqrt (vx * vx + vy * vy) ≠ 0 := ne_of_gt hlen
      field_simp
      nlinarith [hlen2]
  · intro hdead
    simp [applyInput, hdead]

/-- Claim C7, witness at a live player with the axis-aligned intent
(1, 0). -/
theorem c7_witness :
    ∃ q : RPlayer, applyInput (some inputPlayer) 1 0 = some q ∧
      q.velocityX ^ 2 + q.velocityY ^ 2 = inputPlayer.speed ^ 2 ∧
      q.x = inputPlayer.x ∧ q.y = inputPlayer.y ∧ q.speed = inputPlayer.speed ∧
      q.alive = inputPlayer.alive :=
  (c7_input_normalization inputPlayer 1 0 (by norm_num) (by norm_num) (by norm_num)).1 rfl

/-- Claim C8: the interpolation factor is clamped to at most one, one
lerp step never increases the squared distance to the fixed target and
never crosses it on either axis, and with any constant positive
deltaTime the squared distance drops below any positive epsilon squared
after a bounded number of steps. -/
theorem c8_interpolation_convergence (o : OtherPlayer) (dt : ℚ) (hdt : 0 ≤ dt) :
    min (otherPlayerLerpSpeed * dt) 1 ≤ 1 ∧
    distSqToTarget (lerpStep o dt) ≤ distSqToTarget o ∧
    0 ≤ ((lerpStep o dt).targetX - (lerpStep o dt).x) * (o.targetX - o.x) ∧
    0 ≤ ((lerpStep o dt).targetY - (lerpStep o dt).y) * (o.targetY - o.y) ∧
    (0 < dt → ∀ ε : ℚ, 0 < ε → ∃ N : ℕ, ∀ n : ℕ, N ≤ n →
      distSqToTarget ((fun t => lerpStep t dt)^[n] o) < ε ^ 2) := by
  have hf0 : 0 ≤ min (otherPlayerLerpSpeed * dt) 1 := lerp_factor_nonneg dt hdt
  have hf1 : min (otherPlayerLerpSpeed * dt) 1 ≤ 1 := lerp_factor_le_one dt
  have hg0 : 0 ≤ 1 - min (otherPlayerLerpSpeed * dt) 1 := by linarith
  have hg1 : 1 - min (otherPlayerLerpSpeed * dt) 1 ≤ 1 := by linarith
  refine ⟨hf1, ?_, ?_, ?_, ?_⟩
  · rw [lerpStep_distSq]
    have hsq : (1 - min (otherPlayerLerpSpeed * dt) 1) ^ 2 ≤ 1 := by nlinarith
    nlinarith [distSq_nonneg o]
  · rw [lerpStep_gapX]
    have := sq_nonneg (o.targetX - o.x)
    nlinarith
  · rw [lerpStep_gapY]
    have := sq_nonneg (o.targetY - o.y)
    nlinarith
  · intro hdtpos ε hε
    have hfpos : 0 < min (otherPlayerLerpSpeed * dt) 1 :=
      lt_min (by norm_num [otherPlayerLerpSpeed]; linarith) one_pos
    have hglt : 1 - min (otherPlayerLerpSpeed * dt) 1 < 1 := by linarith
    set r : ℚ := (1 - min (otherPlayerLerpSpeed * dt) 1) ^ 2 with hr
    have hr0 : 0 ≤ r := sq_nonneg _
    have hr1 : r < 1 := by nlinarith
    by_cases hd : distSqToTarget o = 0
    · refine ⟨0, fun n _ => ?_⟩
      rw [distSq_iter, hd]
      simpa using pow_pos hε 2
    · have hdpos : 0 < distSqToTarget o := lt_of_le_of_ne (distSq_nonneg o) (Ne.symm hd)
      obtain ⟨N, hN⟩ := exists_pow_lt_of_lt_one (div_pos (pow_pos hε 2) hdpos) hr1
      refine ⟨N, fun n hn => ?_⟩
      rw [distSq_iter]
      have hpow : r ^ n ≤ r ^ N := pow_le_pow_of_le_one hr0 (le_of_lt hr1) hn
      have hlt : r ^ n < ε ^ 2 / distSqToTarget o := lt_of_le_of_lt hpow hN
      calc distSqToTarget o * r ^ n
          < distSqToTarget o * (ε ^ 2 / distSqToTarget o) := mul_lt_mul_of_pos_left hlt hdpos
        _ = ε ^ 2 := by field_simp

/-- Claim C8, witness: one concrete lerp step toward a fixed target does
not increase the squared distance. -/
theorem c8_witness :
    distSqToTarget (lerpStep oDemo (1/60)) ≤ distSqToTarget oDemo :=
  (c8_interpolation_convergence oDemo (1/60) (by norm_num)).2.1

/-- Claim C9, counterexample: a server record with speed zero is not
copied — the falsy-guard expression replaces it with the default speed
3, so the speed is not taken from the server regardless of its value. -/
theorem c9_counterexample :
    (reconcileLocal sBase spZeroSpeed 0).player.speed ≠ spZeroSpeed.speed := by
  norm_num [reconcileLocal, recordPosition, trimHistory, sBase, spZeroSpeed, snapThreshold,
    correctionThreshold, defaultSpeed, blendFactor, maxHistoryLength, List.filter]

/-- Claim C9 (amended): reconcile copies the alive flag unconditionally
and copies the speed only when it is nonzero, substituting the default
speed for a (falsy) zero; if the server reports the player dead, the
position is set immediately to the server value and every subsequent
simulation step leaves the player unchanged until revival. -/
theorem c9_server_authority (s : LocalState) (sp : ServerPlayer) (tick : ℤ) :
    (reconcileLocal s sp tick).player.alive = sp.alive ∧
    (reconcileLocal s sp tick).player.speed = (if sp.speed = 0 then defaultSpeed else sp.speed) ∧
    (sp.alive = false →
      (reconcileLocal s sp tick).player.x = sp.x ∧
      (reconcileLocal s sp tick).player.y = sp.y ∧
      ∀ (m : GameMap) (bombs : List Bomb) (dt : ℚ),
        simulateTick (reconcileLocal s sp tick).player m bombs dt =
          (reconcileLocal s sp tick).player) := by
  refine ⟨reconcile_alive s sp tick, reconcile_speed s sp tick, fun hdead => ?_⟩
  obtain ⟨hx, hy⟩ := reconcile_dead_pos s sp tick hdead
  refine ⟨hx, hy, fun m bombs dt => simulateTick_dead _ m bombs dt ?_⟩
  rw [reconcile_alive]
  exact hdead

/-- Claim C9, witness for the amended theorem at a concrete dead server
record. -/
theorem c9_witness :
    (reconcileLocal sBase spDead 0).player.alive = spDead.alive ∧
    (reconcileLocal sBase spDead 0).player.x = spDead.x ∧
    (reconcileLocal sBase spDead 0).player.y = spDead.y ∧
    simulateTick (reconcileLocal sBase spDead 0).player openMap [] (1/10) =
      (reconcileLocal sBase spDead 0).player := by
  have h := c9_server_authority sBase spDead 0
  exact ⟨h.1, (h.2.2 rfl).1, (h.2.2 rfl).2.1, (h.2.2 rfl).2.2 openMap [] (1/10)⟩

/-- Claim C10: reconcile never writes the velocity components; applyInput
on a dead player is a no-op and so cannot zero them; hence after a
reconcile that reports the player alive, the next simulation step moves
the player with the velocity stored before the reconcile (the stale
commanded velocity), whenever that move passes the collision check. -/
theorem c10_reconcile_preserves_velocity :
    (∀ (s : LocalState) (sp : ServerPlayer) (tick : ℤ),
      (reconcileLocal s sp tick).player.velocityX = s.player.velocityX ∧
      (reconcileLocal s sp tick).player.velocityY = s.player.velocityY) ∧
    (∀ (p : RPlayer) (vx vy : ℝ), p.alive = false → applyInput (some p) vx vy = some p) ∧
    (∀ (s : LocalState) (sp : ServerPlayer) (tick : ℤ) (m : GameMap) (bombs : List Bomb)
        (dt : ℚ), sp.alive = true →
      ¬(s.player.velocityX = 0 ∧ s.player.velocityY = 0) →
      canMoveToTile ((reconcileLocal s sp tick).player.x + s.player.velocityX * dt)
        ((reconcileLocal s sp tick).player.y + s.player.velocityY * dt) m bombs
        (reconcileLocal s sp tick).player.x (reconcileLocal s sp tick).player.y = true →
      (simulateTick (reconcileLocal s sp tick).player m bombs dt).x =
        (reconcileLocal s sp tick).player.x + s.player.velocityX * dt ∧
      (simulateTick (reconcileLocal s sp tick).player m bombs dt).y =
        (reconcileLocal s sp tick).player.y + s.player.velocityY * dt) := by
  refine ⟨fun s sp tick => ⟨reconcile_velocityX s sp tick, reconcile_velocityY s sp tick⟩,
    fun p vx vy h => by simp [applyInput, h], ?_⟩
  intro s sp tick m bombs dt halive hvel hcan
  have hvx := reconcile_velocityX s sp tick
  have hvy := reconcile_velocityY s sp tick
  have ha : (reconcileLocal s sp tick).player.alive = true := by
    rw [reconcile_alive]
    exact halive
  have hv : ¬((reconcileLocal s sp tick).player.velocityX = 0 ∧
      (reconcileLocal s sp tick).player.velocityY = 0) := by
    rw [hvx, hvy]
    exact hvel
  have hmv := simulateTick_move (reconcileLocal s sp tick).player m bombs dt ha hv
    (by rw [hvx, hvy]; exact hcan)
  rw [hmv]
  exact ⟨by simp [hvx], by simp [hvy]⟩

/-- Claim C10, witness: after an in-sync reconcile of a concrete moving
player, the next simulation step advances the position with the
pre-reconcile velocity. -/
theorem c10_witness :
    (simulateTick (reconcileLocal sRun spSame15 0).player openMap [] (1/10)).x =
      (reconcileLocal sRun spSame15 0).player.x + sRun.player.velocityX * (1/10) ∧
    (simulateTick (reconcileLocal sRun spSame15 0).player openMap [] (1/10)).y =
      (reconcileLocal sRun spSame15 0).player.y + sRun.player.velocityY * (1/10) := by
  have hr := reconcile_insync sRun spSame15 0 rfl
    (by norm_num [sRun, pRun, spSame15, correctionThreshold])
  refine c10_reconcile_preserves_velocity.2.2 sRun spSame15 0 openMap [] (1/10) rfl
    (by norm_num [sRun, pRun]) ?_
  rw [hr.1, hr.2]
  apply canMove_openMap <;> norm_num [sRun, pRun, playerRadius]

end Bomber
